import Mathlib

/-
Verification of the docker-web-interface backend (src/backend) against its
specification. The Python sources are shallowly embedded: dictionaries
become association lists, datetime minutes become natural numbers counting
minutes since the epoch, and the cooperative (eventlet) scheduling of the
log-stream handlers becomes an explicit operation trace.
-/

namespace DockerWeb

/-! ## Association-list dictionaries (model of Python dict) -/

/-- Lookup in an association list; models Python `d.get(k)` / `k in d`. -/
def dictFind {α β : Type} [DecidableEq α] (k : α) : List (α × β) → Option β
  | [] => none
  | (k2, v) :: t => if k = k2 then some v else dictFind k t

/-- Update-or-insert; models Python `d[k] = v`. -/
def dictSet {α β : Type} [DecidableEq α] (k : α) (v : β) : List (α × β) → List (α × β)
  | [] => [(k, v)]
  | (k2, v2) :: t => if k = k2 then (k, v) :: t else (k2, v2) :: dictSet k v t

/-- Key removal; models Python `del d[k]`. -/
def dictDel {α β : Type} [DecidableEq α] (k : α) (l : List (α × β)) : List (α × β) :=
  l.filter (fun p => decide (p.1 ≠ k))

/-- Lookup with a default of 0; models Python `d.get(k, 0)`. -/
def dictGet (k : Nat) (l : List (Nat × Nat)) : Nat :=
  (dictFind k l).getD 0

/-! ## StateMapper: DockerService._map_event_to_state
    (src/backend/docker_service.py lines 960-976) -/

/-- The literal `state_mapping` dictionary of `_map_event_to_state`. -/
def state_mapping : List (String × String) :=
  [("create", "created"),
   ("start", "running"),
   ("pause", "paused"),
   ("unpause", "running"),
   ("stop", "stopped"),
   ("kill", "stopped"),
   ("die", "stopped"),
   ("destroy", "deleted"),
   ("restart", "running"),
   ("starting", "starting"),
   ("stopping", "stopping"),
   ("restarting", "restarting")]

/-- Model of `_map_event_to_state`: `state_mapping.get(event_status, event_status)`. -/
def map_event_to_state (event_status : String) : String :=
  (dictFind event_status state_mapping).getD event_status

/-- The nine canonical event statuses named by the specification's table. -/
def canonical_statuses : List String :=
  ["create", "start", "restart", "unpause", "pause", "stop", "kill", "die", "destroy"]

/-! ## EventBridge publish: DockerService._emit_container_state
    (src/backend/docker_service.py lines 332-601) -/

/-- The fields of the fetched snapshot (`container.attrs["State"]`) that
`_emit_container_state` consults: the `Running` boolean and the `Status` string. -/
structure StateInfo where
  running : Bool
  status : String
deriving DecidableEq

/-- The `state` and `status` fields of the `container_data` payload emitted on
`container_state_changed`. -/
structure EmittedState where
  state : String
  status : String
deriving DecidableEq

/-- Model of `_emit_container_state state fetch`: `state` is the event-mapped
state passed in, `fetch` is `none` when `client.containers.get` raises NotFound
and `some info` when the snapshot was fetched. Mirrors the source exactly:
a `deleted` state short-circuits to a minimal record (lines 340-370); a missing
container publishes the event state with status `removed` (lines 385-407); for a
fetched snapshot the event state is published except that a `running` event
state is double-checked against `State.Running` (overridden to `stopped` with
status `exited` when the snapshot is not running, lines 515-525) and a `stopped`
event state is likewise overridden to `running` when the snapshot still reports
running (lines 526-536). -/
def emit_container_state (state : String) (fetch : Option StateInfo) : EmittedState :=
  if state = "deleted" then { state := "deleted", status := "removed" }
  else
    match fetch with
    | none => { state := state, status := "removed" }
    | some info =>
      if state = "running" then
        if info.running then { state := "running", status := info.status }
        else { state := "stopped", status := "exited" }
      else if state = "stopped" then
        if info.running then { state := "running", status := "running" }
        else { state := "stopped", status := info.status }
      else { state := state, status := info.status }

/-! ## RateLimiter: FlaskApp.is_rate_limited / cleanup_request_counts
    (src/backend/docker_monitor.py lines 1274-1304, 1324-1333) -/

/-- The rate-limiter state of `FlaskApp`: the `request_counts` dictionary
(minute-aligned timestamps, encoded as minutes since the epoch, mapped to
counts) together with the runtime-mutable `current_rate_limit` attribute. -/
structure RateState where
  request_counts : List (Nat × Nat)
  current_rate_limit : Nat
deriving DecidableEq

/-- Model of `cleanup_request_counts` (lines 1292-1304): entries whose minute is
strictly below `current_minute - 2` are removed; all others are kept. -/
def cleanup_request_counts (current_minute : Nat) (counts : List (Nat × Nat)) :
    List (Nat × Nat) :=
  counts.filter (fun kv => decide (current_minute - 2 ≤ kv.1))

/-- Model of `is_rate_limited` (lines 1274-1290): clean up, read the current
minute's count, deny (and do not increment) when `count >= limit`, otherwise
increment and allow. Returns the decision together with the updated state. -/
def is_rate_limited (current_minute : Nat) (s : RateState) : Bool × RateState :=
  let counts := cleanup_request_counts current_minute s.request_counts
  let current_count := dictGet current_minute counts
  if s.current_rate_limit ≤ current_count then
    (true, { s with request_counts := counts })
  else
    (false, { s with request_counts := dictSet current_minute (current_count + 1) counts })

/-- The specification's `admit()`: a call is admitted exactly when
`is_rate_limited` returns false. -/
def allow_request (current_minute : Nat) (s : RateState) : Bool × RateState :=
  let r := is_rate_limited current_minute s
  (!r.1, r.2)

/-- A sequence of `admit()` calls in the same minute bucket: returns the list of
decisions in call order and the final state. -/
def allowCalls (current_minute : Nat) : Nat → RateState → List Bool × RateState
  | 0, s => ([], s)
  | n + 1, s =>
    let r := allow_request current_minute s
    let rest := allowCalls current_minute n r.2
    (r.1 :: rest.1, rest.2)

/-- Retuning the ceiling at runtime: `self.current_rate_limit = L`. -/
def set_rate_limit (L : Nat) (s : RateState) : RateState :=
  { s with current_rate_limit := L }

/-- Model of the `rate_limit` decorator (lines 1324-1333): consult
`is_rate_limited` first; when limited return a 429 error response without
calling the wrapped action `f`, otherwise run `f`. The boolean in the result
records whether the wrapped action body ran. -/
def rate_limit (f : RateState → Nat) (current_minute : Nat) (s : RateState) :
    (Nat × Bool) × RateState :=
  let r := is_rate_limited current_minute s
  if r.1 then ((429, false), r.2)
  else ((f r.2, true), r.2)

/-! ## Log tail cursor extraction: stream_logs_background
    (src/backend/docker_monitor.py lines 997-1050) and
    DockerService.stream_container_logs (src/backend/docker_service.py
    lines 242-282) -/

/-- Numeric value of two decimal digit characters, if both are digits. -/
def digits2 (a b : Char) : Option Nat :=
  if a.isDigit ∧ b.isDigit then some ((a.toNat - 48) * 10 + (b.toNat - 48)) else none

/-- Numeric value of four decimal digit characters, if all are digits. -/
def digits4 (a b c d : Char) : Option Nat :=
  if a.isDigit ∧ b.isDigit ∧ c.isDigit ∧ d.isDigit then
    some (((a.toNat - 48) * 1000 + (b.toNat - 48) * 100) + ((c.toNat - 48) * 10 + (d.toNat - 48)))
  else none

/-- Gregorian leap-year test, as used by Python's datetime. -/
def isLeapYear (y : Nat) : Bool :=
  y % 4 == 0 && (y % 100 != 0 || y % 400 == 0)

/-- Number of days in a month of a given year. -/
def daysInMonth (y m : Nat) : Nat :=
  if m = 2 then (if isLeapYear y then 29 else 28)
  else if m = 4 ∨ m = 6 ∨ m = 9 ∨ m = 11 then 30 else 31

/-- Days in the months of year `y` strictly before month `m`. -/
def daysBeforeMonth (y m : Nat) : Nat :=
  (List.range (m - 1)).foldl (fun acc i => acc + daysInMonth y (i + 1)) 0

/-- Days in the years from 1970 up to (excluding) year `y`. -/
def daysFrom1970 (y : Nat) : Nat :=
  ((List.range (y - 1970)).map (fun i => if isLeapYear (1970 + i) then 366 else 365)).sum

/-- Model of `int(datetime.strptime(ts, "%Y-%m-%dT%H:%M:%S").timestamp())` for a
process running in UTC: validates the calendar fields the way the datetime
constructor does (returning `none` where strptime raises, which the source
catches, leaving the cursor unset) and converts to whole seconds since the
epoch. Restricted to years from 1970 on, the range the runtime's log
timestamps live in. -/
def to_epoch (y mo d hh mi ss : Nat) : Option Nat :=
  if 1970 ≤ y ∧ 1 ≤ mo ∧ mo ≤ 12 ∧ 1 ≤ d ∧ d ≤ daysInMonth y mo ∧ hh ≤ 23 ∧ mi ≤ 59 ∧ ss ≤ 59 then
    some ((daysFrom1970 y + daysBeforeMonth y mo + (d - 1)) * 86400 + hh * 3600 + mi * 60 + ss)
  else none

/-- Model of matching `r"(\d{4}-\d{2}-\d{2}T\d{2}:\d{2}:\d{2})"` against the
start of a log line (lines 1004-1014) followed by the strptime conversion:
the line (as its character list) must begin with a 19-character
`YYYY-MM-DDTHH:MM:SS` stamp. -/
def parse_line_timestamp (line : List Char) : Option Nat :=
  match line with
  | y1 :: y2 :: y3 :: y4 :: p1 :: mo1 :: mo2 :: p2 :: d1 :: d2 :: p3 ::
      h1 :: h2 :: p4 :: mi1 :: mi2 :: p5 :: se1 :: se2 :: _ =>
    if p1 = '-' ∧ p2 = '-' ∧ p3 = 'T' ∧ p4 = ':' ∧ p5 = ':' then
      match digits4 y1 y2 y3 y4, digits2 mo1 mo2, digits2 d1 d2,
            digits2 h1 h2, digits2 mi1 mi2, digits2 se1 se2 with
      | some y, some mo, some d, some hh, some mi, some ss => to_epoch y mo d hh mi ss
      | _, _, _, _, _, _ => none
    else none
  | _ => none

/-- Model of Python `str.strip()`: drop whitespace from both ends. -/
def strip_chars (cs : List Char) : List Char :=
  ((cs.dropWhile Char.isWhitespace).reverse.dropWhile Char.isWhitespace).reverse

/-- Model of Python `str.split("\\n")`: split at every newline; like the
Python original, the result is never empty (the empty text yields one empty
piece). -/
def split_newline : List Char → List (List Char)
  | [] => [[]]
  | c :: t =>
    let r := split_newline t
    if c = '\n' then [] :: r
    else
      match r with
      | h :: t2 => (c :: h) :: t2
      | [] => [[c]]

/-- Model of lines 997-1024: strip the initial tail text, split it into lines,
and parse the timestamp of the last line as the resumption cursor
(`last_log_time`); `none` when the text is empty or the last line has no
parseable timestamp. -/
def extract_last_log_time (initial_logs : String) : Option Nat :=
  if initial_logs.toList = [] then none
  else
    match (split_newline (strip_chars initial_logs.toList)).getLast? with
    | some last_line => parse_line_timestamp last_line
    | none => none

/-- The streaming options `stream_container_logs` passes to the runtime
(docker_service.py lines 250-279). -/
structure StreamOptions where
  follow : Bool
  timestamps : Bool
  since : Option Nat
  tail : Nat
deriving DecidableEq

/-- Model of the kwargs construction of `stream_container_logs`: with a cursor,
`since` is set and `tail` forced to 0 so the historical tail is not replayed;
without one, the last 100 lines are streamed. -/
def stream_log_options (since : Option Nat) : StreamOptions :=
  match since with
  | some t => { follow := true, timestamps := true, since := some t, tail := 0 }
  | none => { follow := true, timestamps := true, since := none, tail := 100 }

/-- Modelled from the spec: the external RuntimeClient's follow-mode stream
(spec section 6, `logsFollow(id, sinceTimestamp)`), which per section 4.4
starts strictly after the cursor; it yields exactly the lines of the live feed
whose timestamp is strictly greater than `since`. -/
def logs_follow (feed : List (List Char)) (since : Nat) : List (List Char) :=
  feed.filter (fun l =>
    match parse_line_timestamp l with
    | some t => decide (since < t)
    | none => false)

/-! ## LogStreamSession registry: handle_start_log_stream and
    stream_logs_background (src/backend/docker_monitor.py lines 845-1202) -/

/-- The per-pair stream key `f"{request.sid}_{container_id}"` (line 913). -/
def stream_key (sid container_id : String) : String :=
  sid ++ "_" ++ container_id

/-- The mutable state relevant to the log-stream sessions: the
`active_streams` dictionary (key to stop-flag), the spawned background
sessions (id, stream key, alive), the start handlers currently inside their
`eventlet.sleep(0.1)` grace period, and a fresh-id counter. -/
structure SessionsState where
  active_streams : List (String × Bool)
  sessions : List (Nat × String × Bool)
  pending : List String
  next_id : Nat
deriving DecidableEq

/-- Atomic steps of the eventlet-scheduled code between yield points.
`startCall k` runs `handle_start_log_stream` up to its first yield: when a
stream for `k` already exists, the stop flag is set and the handler enters its
0.1 s sleep (lines 914-926); otherwise the key is registered with flag False
and the background session spawned (lines 929, 1183). `resumeStart k` is the
handler resuming after the sleep: flag reset to False and the replacement
session spawned. `lineBoundary sid` is a live session checking
`self.active_streams.get(stream_key, True)` at a line boundary (lines
1054-1068): a True or missing flag stops the session and deletes the key
(lines 1148-1150), otherwise the line is forwarded and the session stays
live. -/
inductive StreamOp where
  | startCall (key : String)
  | resumeStart (key : String)
  | lineBoundary (sid : Nat)
deriving DecidableEq

/-- One atomic step of the session machinery. -/
def execOp (s : SessionsState) : StreamOp → SessionsState
  | .startCall key =>
    match dictFind key s.active_streams with
    | some _ =>
      { s with active_streams := dictSet key true s.active_streams,
               pending := key :: s.pending }
    | none =>
      { s with active_streams := dictSet key false s.active_streams,
               sessions := (s.next_id, key, true) :: s.sessions,
               next_id := s.next_id + 1 }
  | .resumeStart key =>
    if key ∈ s.pending then
      { s with active_streams := dictSet key false s.active_streams,
               sessions := (s.next_id, key, true) :: s.sessions,
               next_id := s.next_id + 1,
               pending := s.pending.erase key }
    else s
  | .lineBoundary sid =>
    match dictFind sid s.sessions with
    | some (key, true) =>
      if (dictFind key s.active_streams).getD true then
        { s with sessions := dictSet sid (key, false) s.sessions,
                 active_streams := dictDel key s.active_streams }
      else s
    | _ => s

/-- Run a trace of atomic steps. -/
def runOps (s : SessionsState) (ops : List StreamOp) : SessionsState :=
  ops.foldl execOp s

/-- Number of live sessions registered for a stream key. -/
def liveSessionsFor (key : String) (s : SessionsState) : Nat :=
  (s.sessions.filter (fun x => decide (x.2.1 = key ∧ x.2.2 = true))).length

/-- The empty initial state: no streams, no sessions. -/
def initialSessionsState : SessionsState :=
  { active_streams := [], sessions := [], pending := [], next_id := 0 }

/-- The result of the initial tail fetch `get_container_logs` (docker_service.py
lines 225-240): the log text, or an error message. -/
inductive FetchLogs where
  | ok (logs : String)
  | err (msg : String)
deriving DecidableEq

/-- Registry effect of `stream_logs_background` as a function of the tail-fetch
outcome. On an error (lines 940-967) exactly one `error` notification is
emitted to the client and the task returns early, leaving `active_streams`
untouched; on the normal path the stream runs and the completion code (lines
1148-1150) removes the stream key. Returns the updated registry and the number
of error notifications emitted. -/
def stream_logs_background_effect (key : String) (fetch : FetchLogs)
    (streams : List (String × Bool)) : List (String × Bool) × Nat :=
  match fetch with
  | .err _ => (streams, 1)
  | .ok _ => (dictDel key streams, 0)

/-- Model of `handle_start_log_stream` for a pair with no existing stream:
the handler registers the stream key with flag False (line 929) and spawns
`stream_logs_background`, whose registry effect is applied to the registered
state. -/
def handle_start_log_stream (sid container_id : String) (fetch : FetchLogs)
    (streams : List (String × Bool)) : List (String × Bool) × Nat :=
  let key := stream_key sid container_id
  let streams1 := dictSet key false streams
  stream_logs_background_effect key fetch streams1

/-! ## Helper lemmas -/

/-- A status equal to none of the twelve dictionary keys is not found. -/
lemma dictFind_state_mapping_eq_none (s : String)
    (h1 : s ≠ "create") (h2 : s ≠ "start") (h3 : s ≠ "pause") (h4 : s ≠ "unpause")
    (h5 : s ≠ "stop") (h6 : s ≠ "kill") (h7 : s ≠ "die") (h8 : s ≠ "destroy")
    (h9 : s ≠ "restart") (h10 : s ≠ "starting") (h11 : s ≠ "stopping")
    (h12 : s ≠ "restarting") :
    dictFind s state_mapping = none := by
  simp [state_mapping, dictFind, h1, h2, h3, h4, h5, h6, h7, h8, h9, h10, h11, h12]

/-- Filtering with a predicate that keeps key `k` preserves lookup at `k`. -/
lemma dictFind_filter {α β : Type} [DecidableEq α] (k : α) (p : α × β → Bool)
    (l : List (α × β)) (hp : ∀ v, p (k, v) = true) :
    dictFind k (l.filter p) = dictFind k l := by
  induction l with
  | nil => rfl
  | cons kv t ih =>
    obtain ⟨k2, v2⟩ := kv
    by_cases hk : k = k2
    · subst hk
      rw [List.filter_cons, hp v2]
      simp [dictFind]
    · cases hpv : p (k2, v2) with
      | true => simp [List.filter_cons, hpv, dictFind, hk, ih]
      | false => simp [List.filter_cons, hpv, dictFind, hk, ih]

/-- Cleanup never touches the current minute's bucket. -/
lemma dictFind_cleanup (M : Nat) (l : List (Nat × Nat)) :
    dictFind M (cleanup_request_counts M l) = dictFind M l := by
  apply dictFind_filter
  intro v
  simp

/-- Cleanup never changes the current minute's count. -/
lemma dictGet_cleanup (M : Nat) (l : List (Nat × Nat)) :
    dictGet M (cleanup_request_counts M l) = dictGet M l := by
  simp [dictGet, dictFind_cleanup]

/-- Retrieving the key just set returns the value set. -/
lemma dictFind_dictSet_self {α β : Type} [DecidableEq α] (k : α) (v : β)
    (l : List (α × β)) : dictFind k (dictSet k v l) = some v := by
  induction l with
  | nil => simp [dictSet, dictFind]
  | cons kv t ih =>
    obtain ⟨k2, v2⟩ := kv
    by_cases hk : k = k2 <;> simp [dictSet, dictFind, hk, ih]

/-- Entries of an updated dictionary are the new entry or old entries. -/
lemma mem_dictSet {α β : Type} [DecidableEq α] (kv : α × β) (k : α) (v : β)
    (l : List (α × β)) (h : kv ∈ dictSet k v l) : kv = (k, v) ∨ kv ∈ l := by
  induction l with
  | nil => simp [dictSet] at h; simp [h]
  | cons kv2 t ih =>
    obtain ⟨k2, v2⟩ := kv2
    by_cases hk : k = k2
    · simp only [dictSet, if_pos hk, List.mem_cons] at h
      rcases h with h | h
      · exact Or.inl h
      · exact Or.inr (List.mem_cons_of_mem _ h)
    · simp only [dictSet, if_neg hk, List.mem_cons] at h
      rcases h with h | h
      · exact Or.inr (by simp [h])
      · rcases ih h with h2 | h2
        · exact Or.inl h2
        · exact Or.inr (List.mem_cons_of_mem _ h2)

/-- A dictionary whose keys are at most `M` has no entry at `M + 1`. -/
lemma dictFind_eq_none_of_gt (M : Nat) (l : List (Nat × Nat))
    (h : ∀ kv ∈ l, kv.1 ≤ M) : dictFind (M + 1) l = none := by
  induction l with
  | nil => rfl
  | cons kv t ih =>
    obtain ⟨k2, v2⟩ := kv
    have hk : k2 ≤ M := h (k2, v2) (List.mem_cons_self _ _)
    have hne : M + 1 ≠ k2 := by omega
    simp only [dictFind, if_neg hne]
    exact ih (fun kv2 h2 => h kv2 (List.mem_cons_of_mem _ h2))

/-- Characterization of a denied call: `count >= limit` returns True (denied)
and the counter is not incremented; the state only undergoes cleanup. -/
lemma allow_request_denied (M : Nat) (s : RateState)
    (h : s.current_rate_limit ≤ dictGet M (cleanup_request_counts M s.request_counts)) :
    allow_request M s =
      (false, { s with request_counts := cleanup_request_counts M s.request_counts }) := by
  simp [allow_request, is_rate_limited, h]

/-- Characterization of an allowed call: below the ceiling the counter is
incremented and the call admitted. -/
lemma allow_request_allowed (M : Nat) (s : RateState)
    (h : ¬ s.current_rate_limit ≤ dictGet M (cleanup_request_counts M s.request_counts)) :
    allow_request M s =
      (true, { s with request_counts := dictSet M (dictGet M (cleanup_request_counts M s.request_counts) + 1) (cleanup_request_counts M s.request_counts) }) := by
  simp [allow_request, is_rate_limited, h]

/-- Cleanup preserves an upper bound on the keys. -/
lemma cleanup_keys_le (M B : Nat) (l : List (Nat × Nat))
    (h : ∀ kv ∈ l, kv.1 ≤ B) :
    ∀ kv ∈ cleanup_request_counts M l, kv.1 ≤ B := by
  intro kv hkv
  exact h kv (List.mem_of_mem_filter hkv)

/-- Keys kept by cleanup are at least two minutes back from the current minute. -/
lemma cleanup_keys_recent (M : Nat) (l : List (Nat × Nat)) :
    ∀ kv ∈ cleanup_request_counts M l, M - 2 ≤ kv.1 := by
  intro kv hkv
  have := List.of_mem_filter hkv
  simpa using this

/-- Full accounting of a run of `admit()` calls in one minute bucket, starting
from any state whose bucket for that minute holds `c`: the i-th call (0-based)
is admitted exactly when `c + i` is below the ceiling, the bucket ends at the
expected count, the ceiling is untouched, and no future-minute key appears. -/
lemma allowCalls_general (M N : Nat) :
    ∀ (n : Nat) (s : RateState) (c : Nat),
      s.current_rate_limit = N → dictGet M s.request_counts = c →
      (∀ kv ∈ s.request_counts, kv.1 ≤ M) →
      (allowCalls M n s).1 = (List.range n).map (fun i => decide (c + i < N)) ∧
      dictGet M (allowCalls M n s).2.request_counts =
        (if c < N then (if c + n ≤ N then c + n else N) else c) ∧
      (allowCalls M n s).2.current_rate_limit = N ∧
      (∀ kv ∈ (allowCalls M n s).2.request_counts, kv.1 ≤ M) := by
  intro n
  induction n with
  | zero =>
    intro s c h1 h2 h3
    refine ⟨rfl, ?_, h1, h3⟩
    simp only [allowCalls]
    rw [h2]
    split_ifs <;> omega
  | succ n ih =>
    intro s c h1 h2 h3
    have hclean : dictGet M (cleanup_request_counts M s.request_counts) = c := by
      rw [dictGet_cleanup, h2]
    by_cases hcN : c < N
    · have hden : ¬ s.current_rate_limit ≤
          dictGet M (cleanup_request_counts M s.request_counts) := by
        rw [hclean, h1]; omega
      have heq := allow_request_allowed M s hden
      set s2 : RateState := { s with request_counts := dictSet M (dictGet M (cleanup_request_counts M s.request_counts) + 1) (cleanup_request_counts M s.request_counts) } with hs2
      have h1b : s2.current_rate_limit = N := h1
      have h2b : dictGet M s2.request_counts = c + 1 := by
        have hfind : dictFind M s2.request_counts =
            some (dictGet M (cleanup_request_counts M s.request_counts) + 1) := by
          rw [hs2]
          exact dictFind_dictSet_self M _ _
        show (dictFind M s2.request_counts).getD 0 = c + 1
        rw [hfind, Option.getD_some, hclean]
      have h3b : ∀ kv ∈ s2.request_counts, kv.1 ≤ M := by
        intro kv hkv
        rcases mem_dictSet kv M _ _ hkv with h | h
        · simp [h]
        · exact cleanup_keys_le M M s.request_counts h3 kv h
      obtain ⟨ihr, ihc, ihl, ihk⟩ := ih s2 (c + 1) h1b h2b h3b
      have hunfold : allowCalls M (n + 1) s =
          ((allow_request M s).1 :: (allowCalls M n (allow_request M s).2).1,
           (allowCalls M n (allow_request M s).2).2) := rfl
      rw [hunfold, heq]
      refine ⟨?_, ?_, ihl, ihk⟩
      · simp only [ihr]
        rw [List.range_succ_eq_map]
        simp only [List.map_cons, List.map_map]
        congr 1
        · symm
          rw [decide_eq_true_eq]
          omega
        · apply List.map_congr_left
          intro i _
          simp only [Function.comp]
          rw [decide_eq_decide]
          omega
      · rw [ihc]
        split_ifs <;> omega
    · have hden : s.current_rate_limit ≤
          dictGet M (cleanup_request_counts M s.request_counts) := by
        rw [hclean, h1]; omega
      have heq := allow_request_denied M s hden
      set s2 : RateState :=
        { s with request_counts := cleanup_request_counts M s.request_counts } with hs2
      have h1b : s2.current_rate_limit = N := h1
      have h2b : dictGet M s2.request_counts = c := hclean
      have h3b : ∀ kv ∈ s2.request_counts, kv.1 ≤ M :=
        cleanup_keys_le M M s.request_counts h3
      obtain ⟨ihr, ihc, ihl, ihk⟩ := ih s2 c h1b h2b h3b
      have hunfold : allowCalls M (n + 1) s =
          ((allow_request M s).1 :: (allowCalls M n (allow_request M s).2).1,
           (allowCalls M n (allow_request M s).2).2) := rfl
      rw [hunfold, heq]
      refine ⟨?_, ?_, ihl, ihk⟩
      · simp only [ihr]
        rw [List.range_succ_eq_map]
        simp only [List.map_cons, List.map_map]
        congr 1
        · symm
          rw [decide_eq_false_iff_not]
          omega
        · apply List.map_congr_left
          intro i _
          simp only [Function.comp]
          rw [decide_eq_decide]
          omega
      · rw [ihc]
        split_ifs
        omega

/-! ## Claim theorems -/

/-- C8: `StateMapper.map` is a pure total function: every status in the
canonical table maps to exactly the documented enum value, and every status
outside the canonical table is returned unchanged. -/
theorem stateMapper_canonical_total :
    (map_event_to_state "create" = "created" ∧
     map_event_to_state "start" = "running" ∧
     map_event_to_state "restart" = "running" ∧
     map_event_to_state "unpause" = "running" ∧
     map_event_to_state "pause" = "paused" ∧
     map_event_to_state "stop" = "stopped" ∧
     map_event_to_state "kill" = "stopped" ∧
     map_event_to_state "die" = "stopped" ∧
     map_event_to_state "destroy" = "deleted") ∧
    ∀ s : String, s ∉ canonical_statuses → map_event_to_state s = s := by
  constructor
  · exact ⟨rfl, rfl, rfl, rfl, rfl, rfl, rfl, rfl, rfl⟩
  · intro s hs
    simp only [canonical_statuses, List.mem_cons, List.not_mem_nil, or_false, not_or] at hs
    obtain ⟨h1, h2, h9, h4, h3, h5, h6, h7, h8⟩ := hs
    by_cases h10 : s = "starting"
    · subst h10; rfl
    by_cases h11 : s = "stopping"
    · subst h11; rfl
    by_cases h12 : s = "restarting"
    · subst h12; rfl
    have hnone := dictFind_state_mapping_eq_none s h1 h2 h3 h4 h5 h6 h7 h8 h9 h10 h11 h12
    simp [map_event_to_state, hnone]

/-- C8 witness: an unknown status passes through unchanged. -/
theorem stateMapper_canonical_total_witness :
    map_event_to_state "oom" = "oom" :=
  stateMapper_canonical_total.2 "oom" (by decide)

/-- C10: the event-status-to-state mapping is idempotent: applying it twice
gives the same result as applying it once, for every input string. -/
theorem map_event_to_state_idempotent (s : String) :
    map_event_to_state (map_event_to_state s) = map_event_to_state s := by
  by_cases h1 : s = "create"
  · subst h1; rfl
  by_cases h2 : s = "start"
  · subst h2; rfl
  by_cases h3 : s = "pause"
  · subst h3; rfl
  by_cases h4 : s = "unpause"
  · subst h4; rfl
  by_cases h5 : s = "stop"
  · subst h5; rfl
  by_cases h6 : s = "kill"
  · subst h6; rfl
  by_cases h7 : s = "die"
  · subst h7; rfl
  by_cases h8 : s = "destroy"
  · subst h8; rfl
  by_cases h9 : s = "restart"
  · subst h9; rfl
  by_cases h10 : s = "starting"
  · subst h10; rfl
  by_cases h11 : s = "stopping"
  · subst h11; rfl
  by_cases h12 : s = "restarting"
  · subst h12; rfl
  have hnone := dictFind_state_mapping_eq_none s h1 h2 h3 h4 h5 h6 h7 h8 h9 h10 h11 h12
  have hss : map_event_to_state s = s := by simp [map_event_to_state, hnone]
  rw [hss]
  exact hss

/-- C1 counterexample: for a `stop` event whose racy snapshot still reports
`Running = true`, the published state is `running`, not the event-mapped
`stopped` — the snapshot overrides the event state. -/
theorem emit_overrides_stop_event :
    (emit_container_state (map_event_to_state "stop")
        (some { running := true, status := "running" })).state ≠
      map_event_to_state "stop" := by decide

/-- C1 amended: the event-mapped state is authoritative for every published
event whose mapped state is neither `running` nor `stopped` (including the
missing-container path); for a `running` or `stopped` mapped state with a
fetched snapshot, the published state is instead `running` when the snapshot
reports `State.Running` and `stopped` otherwise. -/
theorem emit_state_amended (st : String) (fetch : Option StateInfo) :
    (st ≠ "running" → st ≠ "stopped" → (emit_container_state st fetch).state = st) ∧
    (∀ info, fetch = some info → (st = "running" ∨ st = "stopped") →
      (emit_container_state st fetch).state = (if info.running then "running" else "stopped")) := by
  constructor
  · intro hr hs
    by_cases hd : st = "deleted"
    · subst hd; rfl
    cases fetch with
    | none => simp [emit_container_state, hd]
    | some info => simp [emit_container_state, hd, hr, hs]
  · intro info hf hor
    subst hf
    obtain ⟨run, stat⟩ := info
    rcases hor with h | h
    · subst h
      cases run <;> rfl
    · subst h
      cases run <;> rfl

/-- C1 amended witness: for a `create` event the published state is the
event-mapped state regardless of the snapshot. -/
theorem emit_state_amended_witness :
    (emit_container_state (map_event_to_state "create")
        (some { running := true, status := "running" })).state =
      map_event_to_state "create" :=
  (emit_state_amended (map_event_to_state "create")
      (some { running := true, status := "running" })).1 (by decide) (by decide)

/-- C4: with ceiling `N >= 1` and a fresh minute bucket, calls 1..N are all
admitted, every later call in the same minute is denied and does not increment
the bucket (the counter stays at `N`, reflecting the `count >= limit` denial
check), and the first call of the following minute is admitted again. -/
theorem rate_limit_boundary (N M n : Nat) (s : RateState) (hN : 1 ≤ N)
    (hlim : s.current_rate_limit = N) (h0 : dictGet M s.request_counts = 0)
    (hpast : ∀ kv ∈ s.request_counts, kv.1 ≤ M) :
    (allowCalls M n s).1 = (List.range n).map (fun i => decide (i < N)) ∧
    dictGet M (allowCalls M n s).2.request_counts = min n N ∧
    (allow_request (M + 1) (allowCalls M n s).2).1 = true := by
  obtain ⟨hr, hc, hl, hk⟩ := allowCalls_general M N n s 0 hlim h0 hpast
  refine ⟨?_, ?_, ?_⟩
  · rw [hr]
    apply List.map_congr_left
    intro i _
    rw [decide_eq_decide]
    omega
  · rw [hc, Nat.min_def]
    split_ifs <;> omega
  · have hnone : dictFind (M + 1) (allowCalls M n s).2.request_counts = none :=
      dictFind_eq_none_of_gt M _ hk
    have hget : dictGet (M + 1) (allowCalls M n s).2.request_counts = 0 := by
      simp [dictGet, hnone]
    have hcg : dictGet (M + 1)
        (cleanup_request_counts (M + 1) (allowCalls M n s).2.request_counts) = 0 := by
      rw [dictGet_cleanup, hget]
    have hden : ¬ (allowCalls M n s).2.current_rate_limit ≤ dictGet (M + 1)
        (cleanup_request_counts (M + 1) (allowCalls M n s).2.request_counts) := by
      rw [hcg, hl]; omega
    rw [allow_request_allowed _ _ hden]

/-- C4 witness: ceiling 2, three calls in minute 10 give true, true, false; the
bucket ends at 2 and the first call of minute 11 is admitted. -/
theorem rate_limit_boundary_witness :
    (allowCalls 10 3 { request_counts := [], current_rate_limit := 2 }).1 =
      (List.range 3).map (fun i => decide (i < 2)) ∧
    dictGet 10 (allowCalls 10 3 { request_counts := [], current_rate_limit := 2 }).2.request_counts = min 3 2 ∧
    (allow_request (10 + 1) (allowCalls 10 3 { request_counts := [], current_rate_limit := 2 }).2).1 = true :=
  rate_limit_boundary 2 10 3 { request_counts := [], current_rate_limit := 2 }
    (by decide) rfl (by decide) (by simp)

/-- C6: the decision of `admit()` reads `current_rate_limit` at call time: after
retuning the ceiling to `L2`, the decision is independent of the ceiling `L`
held at construction and compares the bucket's count against `L2`. -/
theorem allow_reads_ceiling_fresh (M L L2 : Nat) (s : RateState) :
    (allow_request M (set_rate_limit L2 (set_rate_limit L s))).1 =
      (allow_request M (set_rate_limit L2 s)).1 ∧
    (allow_request M (set_rate_limit L2 s)).1 =
      decide (dictGet M s.request_counts < L2) := by
  constructor
  · rfl
  · have hc : dictGet M (cleanup_request_counts M s.request_counts) =
        dictGet M s.request_counts := dictGet_cleanup M s.request_counts
    by_cases h : L2 ≤ dictGet M s.request_counts
    · have h2 : (set_rate_limit L2 s).current_rate_limit ≤ dictGet M
          (cleanup_request_counts M (set_rate_limit L2 s).request_counts) := by
        show L2 ≤ dictGet M (cleanup_request_counts M s.request_counts)
        rw [hc]; exact h
      rw [allow_request_denied _ _ h2]
      have hnot : ¬ dictGet M s.request_counts < L2 := by omega
      simp [hnot]
    · have h2 : ¬ (set_rate_limit L2 s).current_rate_limit ≤ dictGet M
          (cleanup_request_counts M (set_rate_limit L2 s).request_counts) := by
        show ¬ L2 ≤ dictGet M (cleanup_request_counts M s.request_counts)
        rw [hc]; exact h
      rw [allow_request_allowed _ _ h2]
      have hlt : dictGet M s.request_counts < L2 := by omega
      simp [hlt]

/-- C7: after every `admit()` call at minute `M`, the rate window holds no
bucket older than two minutes (cleanup runs inline on the call itself), and
the bucket count for minute `M` is monotonically non-decreasing across any
number of successive calls in that minute. -/
theorem rate_window_inline_cleanup_monotone (M : Nat) (s : RateState) :
    (∀ kv ∈ (allow_request M s).2.request_counts, M - 2 ≤ kv.1) ∧
    (∀ n : Nat, dictGet M s.request_counts ≤ dictGet M (allowCalls M n s).2.request_counts) := by
  have hstep : ∀ s2 : RateState,
      (∀ kv ∈ (allow_request M s2).2.request_counts, M - 2 ≤ kv.1) ∧
      dictGet M s2.request_counts ≤ dictGet M (allow_request M s2).2.request_counts := by
    intro s2
    by_cases h : s2.current_rate_limit ≤ dictGet M (cleanup_request_counts M s2.request_counts)
    · rw [allow_request_denied _ _ h]
      refine ⟨cleanup_keys_recent M s2.request_counts, ?_⟩
      rw [dictGet_cleanup]
    · rw [allow_request_allowed _ _ h]
      constructor
      · intro kv hkv
        rcases mem_dictSet kv M _ _ hkv with h2 | h2
        · simp [h2]
        · exact cleanup_keys_recent M s2.request_counts kv h2
      · have hfind : dictFind M (dictSet M (dictGet M (cleanup_request_counts M s2.request_counts) + 1) (cleanup_request_counts M s2.request_counts)) = some (dictGet M (cleanup_request_counts M s2.request_counts) + 1) :=
          dictFind_dictSet_self M _ _

        show dictGet M s2.request_counts ≤ (dictFind M (dictSet M (dictGet M (cleanup_request_counts M s2.request_counts) + 1) (cleanup_request_counts M s2.request_counts))).getD 0
        rw [hfind, Option.getD_some, dictGet_cleanup]
        omega
  refine ⟨(hstep s).1, ?_⟩
  intro n
  induction n generalizing s with
  | zero => exact Nat.le_refl _
  | succ n ih =>
    have hun : allowCalls M (n + 1) s =
        ((allow_request M s).1 :: (allowCalls M n (allow_request M s).2).1,
         (allowCalls M n (allow_request M s).2).2) := rfl
    rw [hun]
    exact Nat.le_trans (hstep s).2 (ih (allow_request M s).2)

/-- C9: every rate-limited action consults the limiter first; whenever
`admit()` returns false the decorator returns a 429 rate-limit-exceeded
failure and the wrapped action body never runs, for every wrapped action. -/
theorem rate_limit_denies_without_action (f : RateState → Nat) (M : Nat)
    (s : RateState) (h : (allow_request M s).1 = false) :
    (rate_limit f M s).1 = (429, false) := by
  have h2 : (is_rate_limited M s).1 = true := by
    simp only [allow_request, Bool.not_eq_false'] at h
    exact h
  simp [rate_limit, h2]

/-- C9 witness: with a full bucket (count 3, ceiling 3) the decorator returns
429 and does not run the action. -/
theorem rate_limit_denies_without_action_witness :
    (rate_limit (fun _ => 200) 5 { request_counts := [(5, 3)], current_rate_limit := 3 }).1 = (429, false) :=
  rate_limit_denies_without_action (fun _ => 200) 5
    { request_counts := [(5, 3)], current_rate_limit := 3 } (by decide)

/-- C3 counterexample: two `start_log_stream` calls for the same pair in
immediate succession, with the container idle (no line boundary reached during
the 0.1 s grace period), leave two live sessions for the pair after both calls
settle — the first session is signalled but never awaited, and the second
start resets the shared stop flag to False before the first observes it. -/
theorem double_start_two_live :
    liveSessionsFor "c1" (runOps initialSessionsState
      [.startCall "c1", .startCall "c1", .resumeStart "c1"]) = 2 := by decide

/-- C3 amended: starting a second session for a pair signals the existing one
and waits only a fixed 0.1 s grace period; when the existing session reaches a
line boundary during that period it observes the stop flag and tears down, and
then exactly one live session remains for the pair after both calls settle,
with the first session observed cancelled before the replacement was spawned. -/
theorem double_start_with_line_check_single_live (key : String) :
    liveSessionsFor key (runOps initialSessionsState
      [.startCall key, .startCall key, .lineBoundary 0, .resumeStart key]) = 1 ∧
    dictFind 0 (runOps initialSessionsState
      [.startCall key, .startCall key, .lineBoundary 0, .resumeStart key]).sessions =
      some (key, false) := by
  simp [runOps, execOp, initialSessionsState, dictFind, dictSet, dictDel,
    liveSessionsFor, stream_key]

/-- C5: when the initial tail fetch fails, exactly one error notification is
emitted, but the registry entry registered for the pair before the fetch is
left in place (value False) instead of being removed — the early return on the
tail-fetch error path skips the cleanup that the generic exception path
performs. -/
theorem tail_fetch_error_leaves_registry_entry :
    (handle_start_log_stream "sid1" "c1" (.err "boom") []).2 = 1 ∧
    dictFind (stream_key "sid1" "c1")
      (handle_start_log_stream "sid1" "c1" (.err "boom") []).1 = some false := by
  decide

/-- Two lines with different parsed timestamps are different lines. -/
lemma parse_ne_of_ts_ne (a b : List Char) (ta tb : Nat)
    (hpa : parse_line_timestamp a = some ta) (hpb : parse_line_timestamp b = some tb)
    (hne : ta ≠ tb) : a ≠ b := by
  intro he
  subst he
  rw [hpa] at hpb
  exact hne (Option.some.inj hpb)

/-- C2: for a session whose initial tail has three lines with strictly
increasing timestamps, the extracted resumption cursor is the timestamp of the
last delivered line, the follow-mode stream is requested with `since` equal to
that cursor and `tail = 0`, every line the follow stream yields has a
timestamp strictly after the cursor, and consequently no line with timestamp
at most the cursor is delivered twice across the tail batch plus the follow
stream. -/
theorem tail_cursor_no_duplicates (l1 l2 l3 : List Char) (t1 t2 t3 : Nat)
    (logs : String) (feed : List (List Char))
    (hsplit : split_newline (strip_chars logs.toList) = [l1, l2, l3])
    (h1 : parse_line_timestamp l1 = some t1)
    (h2 : parse_line_timestamp l2 = some t2)
    (h3 : parse_line_timestamp l3 = some t3)
    (h12 : t1 < t2) (h23 : t2 < t3) :
    extract_last_log_time logs = some t3 ∧
    stream_log_options (extract_last_log_time logs) =
      { follow := true, timestamps := true, since := some t3, tail := 0 } ∧
    (∀ l ∈ logs_follow feed t3, ∀ t, parse_line_timestamp l = some t → t3 < t) ∧
    (∀ l t, parse_line_timestamp l = some t → t ≤ t3 →
      ([l1, l2, l3] ++ logs_follow feed t3).count l ≤ 1) := by
  have hne : ¬ logs.toList = [] := by
    intro he
    rw [he] at hsplit
    simp [strip_chars, split_newline] at hsplit
  have hext : extract_last_log_time logs = some t3 := by
    unfold extract_last_log_time
    rw [if_neg hne, hsplit]
    exact h3
  have hfollow : ∀ l ∈ logs_follow feed t3, ∀ t,
      parse_line_timestamp l = some t → t3 < t := by
    intro l hl t hpt
    have hp := List.of_mem_filter hl
    rw [hpt] at hp
    exact of_decide_eq_true hp
  refine ⟨hext, by rw [hext]; rfl, hfollow, ?_⟩
  intro l t hpt hle
  rw [List.count_append]
  have hzero : (logs_follow feed t3).count l = 0 := by
    rw [List.count_eq_zero]
    intro hl
    have := hfollow l hl t hpt
    omega
  rw [hzero]
  have d12 := parse_ne_of_ts_ne l1 l2 t1 t2 h1 h2 (by omega)
  have d13 := parse_ne_of_ts_ne l1 l3 t1 t3 h1 h3 (by omega)
  have d23 := parse_ne_of_ts_ne l2 l3 t2 t3 h2 h3 (by omega)
  by_cases e1 : l = l1
  · subst e1
    simp [List.count_cons, beq_iff_eq, d12, d13]
  by_cases e2 : l = l2
  · subst e2
    simp [List.count_cons, beq_iff_eq, Ne.symm d12, d23, e1]
  by_cases e3 : l = l3
  · subst e3
    simp [List.count_cons, beq_iff_eq, Ne.symm d13, Ne.symm d23, e1, e2]
  · simp [List.count_cons, beq_iff_eq, e1, e2, e3]

/-- C2 witness: a concrete three-line tail with increasing timestamps yields
the last line's timestamp as cursor and a follow request with that `since` and
`tail = 0`. -/
theorem tail_cursor_no_duplicates_witness :
    extract_last_log_time "2024-01-02T03:04:05 alpha\n2024-01-02T03:04:06 beta\n2024-01-02T03:04:07 gamma" = some 1704164647 ∧
    stream_log_options (extract_last_log_time "2024-01-02T03:04:05 alpha\n2024-01-02T03:04:06 beta\n2024-01-02T03:04:07 gamma") =
      { follow := true, timestamps := true, since := some 1704164647, tail := 0 } := by
  have h := tail_cursor_no_duplicates
    ("2024-01-02T03:04:05 alpha".toList) ("2024-01-02T03:04:06 beta".toList)
    ("2024-01-02T03:04:07 gamma".toList) 1704164645 1704164646 1704164647
    "2024-01-02T03:04:05 alpha\n2024-01-02T03:04:06 beta\n2024-01-02T03:04:07 gamma" []
    (by decide) (by decide) (by decide) (by decide) (by decide) (by decide)
  exact ⟨h.1, h.2.1⟩

end DockerWeb
